import Mathlib

namespace CompSched

/-! Shallow embedding of the optimization-modeling core: the feasible
region built by `ModelBuilder.build_base_model`, the objective and
calibration computations of `ObjectiveManager`, the four multi-objective
strategies of `OptimizationApproaches`, and `ResultExtractor`. Solver
invocations are modelled by passing their outcomes (status, variable
assignment, objective value) as explicit parameters. -/

/-- A candidate assignment of values to all decision variables of the base
model: machine operation `x`, incentive claim `y`, completed flag `u`,
per-slot consumption `e`, and peak load `PL`, as a solver would return. -/
structure Assign where
  x : ℕ → ℕ → ℕ → ℚ
  y : ℕ → ℕ → ℕ → ℚ
  u : ℕ → ℕ → ℕ → ℚ
  e : ℕ → ℚ
  PL : ℚ

/-- The optimization parameters held by `DataManager` and read by
`ModelBuilder.build_base_model`: counts `I`, `T`, `S`, the keyed parameter
dictionaries `R`, `N`, `E`, `L`, `c`, `o` (an absent key models a key
missing from the Python dict), slot duration `alpha`, budgets `A`, and the
machine dependency map as an association list. -/
structure Params where
  I : ℕ
  T : ℕ
  S : ℕ
  R : ℕ × ℕ → Option ℚ
  N : ℕ × ℕ → Option ℚ
  E : ℕ × ℕ → Option ℕ
  L : ℕ × ℕ → Option ℕ
  c : ℕ → Option ℚ
  o : ℕ → Option ℚ
  alpha : ℚ
  A : ℕ → ℚ
  deps : List ((ℕ × ℕ) × ℕ)

/-- The 1-based index range `[1..n]` used by every loop in the source
(`range(1, n + 1)`). -/
def rng1 (n : ℕ) : List ℕ := List.range' 1 n

/-- `R.get((i, s), 0)` from the source. -/
def Rget (p : Params) (i s : ℕ) : ℚ := (p.R (i, s)).getD 0

/-- `c.get(t, 0)` from the source. -/
def cget (p : Params) (t : ℕ) : ℚ := (p.c t).getD 0

/-- `o.get(t, 0)` from the source. -/
def oget (p : Params) (t : ℕ) : ℚ := (p.o t).getD 0

/-- `N.get((i, s), 0)` from the source. -/
def Nget (p : Params) (i s : ℕ) : ℚ := (p.N (i, s)).getD 0

/-- Value taken by a PuLP binary variable. -/
def isBinary (q : ℚ) : Bool := decide (q = 0) || decide (q = 1)

/-- All of `x`, `y`, `u` are binary variables (`cat=pl.LpBinary`). -/
def binariesOk (p : Params) (a : Assign) : Bool :=
  (rng1 p.I).all fun i => (rng1 p.T).all fun t => (rng1 p.S).all fun s =>
    isBinary (a.x i t s) && isBinary (a.y i t s) && isBinary (a.u i t s)

/-- `_add_electricity_consumption_constraints`: for every `t`,
`e[t] == sum over s, i of R.get((i,s),0) * x[(i,t,s)]`. -/
def energyOk (p : Params) (a : Assign) : Bool :=
  (rng1 p.T).all fun t =>
    decide (a.e t =
      ((rng1 p.S).map fun s =>
        ((rng1 p.I).map fun i => Rget p i s * a.x i t s).sum).sum)

/-- `_add_peak_load_constraints`: for every `t`, `PL >= e[t]`. -/
def peakOk (p : Params) (a : Assign) : Bool :=
  (rng1 p.T).all fun t => decide (a.e t ≤ a.PL)

/-- Lower bounds declared on the continuous variables (`lowBound=0`). -/
def boundsOk (p : Params) (a : Assign) : Bool :=
  ((rng1 p.T).all fun t => decide (0 ≤ a.e t)) && decide (0 ≤ a.PL)

/-- `_add_budget_constraints`: per system `s`, the net spend is at most
`A[s]`. -/
def budgetOk (p : Params) (a : Assign) : Bool :=
  (rng1 p.S).all fun s =>
    decide
      (((rng1 p.T).map fun t =>
        ((rng1 p.I).map fun i =>
          Rget p i s * (cget p t * a.x i t s - oget p t * a.y i t s)
            * p.alpha).sum).sum ≤ p.A s)

/-- `_add_operation_duration_constraints`: for each `(i, s)` with both a
defined early slot `E` and late slot `L`, the on-slots within `[E..L]`
number at least `N.get((i,s),0)`. -/
def durationOk (p : Params) (a : Assign) : Bool :=
  (rng1 p.S).all fun s => (rng1 p.I).all fun i =>
    match p.E (i, s), p.L (i, s) with
    | some e0, some l0 =>
        decide (Nget p i s ≤
          ((List.range' e0 (l0 + 1 - e0)).map fun t => a.x i t s).sum)
    | _, _ => true

/-- `_add_uninterruptible_operation_constraints`: the three coupled
families `x <= 1 - u`, `x[t-1] - x[t] <= u[t]` for `t >= 2`, and
`u[t-1] <= u[t]` for `t >= 2`. -/
def uninterruptOk (p : Params) (a : Assign) : Bool :=
  (rng1 p.S).all fun s => (rng1 p.I).all fun i => (rng1 p.T).all fun t =>
    decide (a.x i t s ≤ 1 - a.u i t s) &&
    (if 2 ≤ t then
      decide (a.x i (t - 1) s - a.x i t s ≤ a.u i t s) &&
      decide (a.u i (t - 1) s ≤ a.u i t s)
    else true)

/-- `_add_machine_dependency_constraints`: for each registered dependency
`(i, s) -> i_star` and every `t`, `x[(i,t,s)] <= u[(i_star,t,s)]`. -/
def depsOk (p : Params) (a : Assign) : Bool :=
  p.deps.all fun d => (rng1 p.T).all fun t =>
    decide (a.x d.1.1 t d.1.2 ≤ a.u d.2 t d.1.2)

/-- `_add_incentive_constraints`: `y[(i,t,s)] <= x[(i,t,s)]`. -/
def incentiveOk (p : Params) (a : Assign) : Bool :=
  (rng1 p.S).all fun s => (rng1 p.I).all fun i => (rng1 p.T).all fun t =>
    decide (a.y i t s ≤ a.x i t s)

/-- The full feasible region produced by `ModelBuilder.build_base_model`:
variable domains plus the seven constraint families, no objective. -/
def feasibleB (p : Params) (a : Assign) : Bool :=
  binariesOk p a && energyOk p a && peakOk p a && budgetOk p a &&
  durationOk p a && uninterruptOk p a && depsOk p a && incentiveOk p a &&
  boundsOk p a

/-- The index list over which `build_base_model` creates the per-slot
binary variables `x`, `y`, `u`: the Python comprehension
`[(i, t, s) for i in range(1, I+1) for t in range(1, T+1) for s in range(1, S+1)]`. -/
def variable_indices (I T S : ℕ) : List (ℕ × ℕ × ℕ) :=
  (rng1 I).flatMap fun i => (rng1 T).flatMap fun t =>
    (rng1 S).map fun s => (i, t, s)

/-- `i` has completed an actual run (a maximal block of on-slots) ending at
or before slot `t`: some on-slot `en ≤ t` is immediately followed by an
off-slot, i.e. a shutdown boundary lies at or before `t`. -/
def completed_run_by (a : Assign) (i s t : ℕ) : Bool :=
  (rng1 t).any fun en =>
    decide (a.x i en s = 1) && decide (a.x i (en + 1) s = 0)

/-- Python truthiness coercion `value or default` applied to an optional
float: `None` and `0.0` both fall back to the default. -/
def pyOr (v : Option ℚ) (d : ℚ) : ℚ :=
  match v with
  | none => d
  | some q => if q = 0 then d else q

/-- The raw nadir estimates of `get_nadir_points`, before the equal-case
perturbation. Each calibration single-objective solve is represented by
its outcome: `none` when the solve did not reach optimal status, or
`some (EC value, PL value)` read off at the optimum. When both
calibration solves are optimal, each nadir is
`max(cross-value, own-optimal * 1.5)`; otherwise the fallback is
`ideal * 2` when the (coerced) ideal is truthy, else the fixed default
(100 for EC, 20 for PL). -/
def nadir_raw (ECideal PLideal : ℚ) (calibEC calibPL : Option (ℚ × ℚ)) :
    ℚ × ℚ :=
  match calibEC, calibPL with
  | some cE, some cP => (max cP.1 (cE.1 * 1.5), max cE.2 (cP.2 * 1.5))
  | _, _ =>
      (if ECideal = 0 then 100 else ECideal * 2,
       if PLideal = 0 then 20 else PLideal * 2)

/-- The equal-case perturbation of `get_nadir_points`: if a nadir equals
its ideal it is replaced by `ideal * 1.1 + 0.1`. -/
def nadir_fix (ideal raw : ℚ) : ℚ :=
  if raw = ideal then ideal * 1.1 + 0.1 else raw

/-- `ObjectiveManager.get_nadir_points`, as a function of the four solver
outcomes it consumes: the EC-ideal and PL-ideal solve values (`none` on a
non-optimal solve) and the two calibration solves (each `none`, or
`some (EC value, PL value)` at that optimum). Returns
`(EC_ideal, PL_ideal, EC_nadir, PL_nadir)`. -/
def get_nadir_points (ecIdealSolve plIdealSolve : Option ℚ)
    (calibEC calibPL : Option (ℚ × ℚ)) : ℚ × ℚ × ℚ × ℚ :=
  (pyOr ecIdealSolve 0, pyOr plIdealSolve 0,
   nadir_fix (pyOr ecIdealSolve 0)
     (nadir_raw (pyOr ecIdealSolve 0) (pyOr plIdealSolve 0) calibEC calibPL).1,
   nadir_fix (pyOr plIdealSolve 0)
     (nadir_raw (pyOr ecIdealSolve 0) (pyOr plIdealSolve 0) calibEC calibPL).2)

/-- `ObjectiveManager.get_normalization_factors`: computes
`(EC_ideal, PL_ideal, 1/(EC_nadir - EC_ideal), 1/(PL_nadir - PL_ideal))`.
A zero denominator raises `ZeroDivisionError` in Python; that exceptional
outcome is modelled by `none`. -/
def get_normalization_factors (ecIdealSolve plIdealSolve : Option ℚ)
    (calibEC calibPL : Option (ℚ × ℚ)) : Option (ℚ × ℚ × ℚ × ℚ) :=
  if (get_nadir_points ecIdealSolve plIdealSolve calibEC calibPL).2.2.1 -
      (get_nadir_points ecIdealSolve plIdealSolve calibEC calibPL).1 = 0 then
    none
  else if (get_nadir_points ecIdealSolve plIdealSolve calibEC calibPL).2.2.2 -
      (get_nadir_points ecIdealSolve plIdealSolve calibEC calibPL).2.1 = 0 then
    none
  else
    some ((get_nadir_points ecIdealSolve plIdealSolve calibEC calibPL).1,
      (get_nadir_points ecIdealSolve plIdealSolve calibEC calibPL).2.1,
      1 / ((get_nadir_points ecIdealSolve plIdealSolve calibEC calibPL).2.2.1 -
        (get_nadir_points ecIdealSolve plIdealSolve calibEC calibPL).1),
      1 / ((get_nadir_points ecIdealSolve plIdealSolve calibEC calibPL).2.2.2 -
        (get_nadir_points ecIdealSolve plIdealSolve calibEC calibPL).2.1))

/-- Solver-consistency bound used to state the amended C3: a calibration
outcome, when present, reports objective values no better than the
corresponding ideal values (the ideal is the minimum over the same
region). -/
def calibration_at_least (cal : Option (ℚ × ℚ)) (ecLow plLow : ℚ) : Bool :=
  match cal with
  | none => true
  | some v => decide (ecLow ≤ v.1) && decide (plLow ≤ v.2)

/-- Denominator `max(EC_ideal, 0.001)` of the EC deviation constraint in
`solve_compromise_programming`, with the `or 0.1` ideal coercion. -/
def compromise_EC_denominator (ecIdealSolve : Option ℚ) : ℚ :=
  max (pyOr ecIdealSolve 0.1) 0.001

/-- Denominator `max(PL_ideal, 0.001)` of the PL deviation constraint in
`solve_compromise_programming`, with the `or 0.1` ideal coercion. -/
def compromise_PL_denominator (plIdealSolve : Option ℚ) : ℚ :=
  max (pyOr plIdealSolve 0.1) 0.001

/-- PuLP solve status. -/
inductive LpStatus
  | optimal
  | notSolved
  | infeasible
  | unbounded
deriving DecidableEq

/-- Outcome of one solver invocation: the status, the variable assignment
(meaningful when optimal), and the objective value `pl.value(model.objective)`. -/
structure SolveOutcome where
  status : LpStatus
  assign : Assign
  objValue : ℚ

/-- The objective installed on a model by a strategy. -/
inductive ModelObjective
  | ecObj
  | plObj
  | weightedObj (wEC wPL ECideal PLideal ECnorm PLnorm : ℚ)
  | compromiseObj (wEC wPL ECideal PLideal : ℚ)
deriving DecidableEq

/-- A model handed to the solver: the base region parameters, the optional
extra cap constraints added by the preemptive strategies
(`Maintain_Optimal_EC` / `Maintain_Optimal_PL`), and the objective. -/
structure ScheduleModel where
  params : Params
  ecCap : Option ℚ
  plCap : Option ℚ
  objective : Option ModelObjective

/-- `ModelBuilder.build_base_model`: a fresh region with all constraints
and no objective. -/
def build_base_model (p : Params) : ScheduleModel :=
  ⟨p, none, none, none⟩

/-- `ObjectiveManager.calculate_EC_expression`:
`sum over s, t, i of R.get((i,s),0) * (c.get(t,0)*x - o.get(t,0)*y) * alpha`. -/
def calculate_EC_expression (p : Params) (a : Assign) : ℚ :=
  ((rng1 p.S).map fun s =>
    ((rng1 p.T).map fun t =>
      ((rng1 p.I).map fun i =>
        Rget p i s * (cget p t * a.x i t s - oget p t * a.y i t s)
          * p.alpha).sum).sum).sum

/-- The normalized weighted objective built by `solve_weighted_sum`:
`w_EC * (EC - EC_ideal) * EC_norm + w_PL * (PL - PL_ideal) * PL_norm`. -/
def weighted_objective (p : Params)
    (wEC wPL ECideal PLideal ECnorm PLnorm : ℚ) (a : Assign) : ℚ :=
  wEC * ((calculate_EC_expression p a - ECideal) * ECnorm) +
  wPL * ((a.PL - PLideal) * PLnorm)

/-- One row of the extracted schedule table. -/
structure ScheduleRecord where
  systemID : ℕ
  machineID : ℕ
  timeSlot : ℕ
  status : ℕ
  power : ℚ
deriving DecidableEq

/-- `ResultExtractor._calculate_EC_value`: recomputes the cost from the
solved `x`, `y` values, skipping `(i, s)` pairs absent from `R`. -/
def calculate_EC_value (p : Params) (a : Assign) : ℚ :=
  ((rng1 p.S).map fun s =>
    ((rng1 p.I).map fun i =>
      ((rng1 p.T).map fun t =>
        if (p.R (i, s)).isSome then
          Rget p i s * (cget p t * a.x i t s - oget p t * a.y i t s)
            * p.alpha
        else 0).sum).sum).sum

/-- `ResultExtractor._extract_schedule`: one record per `(s, i, t)` with
`(i, s)` present in `R`, with threshold rounding `status = 1` iff the
solved `x` exceeds `0.5`. -/
def extract_schedule (p : Params) (a : Assign) : List ScheduleRecord :=
  (rng1 p.S).flatMap fun s => (rng1 p.I).flatMap fun i =>
    (rng1 p.T).filterMap fun t =>
      if (p.R (i, s)).isSome then
        some (if a.x i t s > 0.5 then
          ⟨s, i, t, 1, Rget p i s⟩
        else
          ⟨s, i, t, 0, 0⟩)
      else none

/-- `ResultExtractor._calculate_load_profile`: `t -> e[t]` for every t. -/
def calculate_load_profile (p : Params) (a : Assign) : List (ℕ × ℚ) :=
  (rng1 p.T).map fun t => (t, a.e t)

/-- The result dictionary of a successful extraction. -/
structure StratResults where
  EC : ℚ
  PL : ℚ
  schedule : List ScheduleRecord
  loadProfile : List (ℕ × ℚ)

/-- `ResultExtractor.extract_results`: `none` when the supplied solve
status is not optimal, otherwise the recomputed cost, the peak-load value,
the schedule table and the load profile. -/
def extract_results (p : Params) (outc : SolveOutcome) : Option StratResults :=
  if outc.status ≠ LpStatus.optimal then none
  else
    some ⟨calculate_EC_value p outc.assign, outc.assign.PL,
      extract_schedule p outc.assign, calculate_load_profile p outc.assign⟩

/-- The step-1 model of `solve_preemptive_EC_first` (and of
`get_EC_ideal`): base region plus the EC objective. -/
def ec_only_model (p : Params) : ScheduleModel :=
  ⟨p, none, none, some ModelObjective.ecObj⟩

/-- The step-1 model of `solve_preemptive_PL_first` (and of
`get_PL_ideal`): base region plus the PL objective. -/
def pl_only_model (p : Params) : ScheduleModel :=
  ⟨p, none, none, some ModelObjective.plObj⟩

/-- The step-2 model of `solve_preemptive_EC_first`: a fresh region, the
constraint `EC <= optimal_EC * 1.001` and the PL objective. -/
def ec_first_step2_model (p : Params) (optimalEC : ℚ) : ScheduleModel :=
  ⟨p, some (optimalEC * 1.001), none, some ModelObjective.plObj⟩

/-- The step-2 model of `solve_preemptive_PL_first`: a fresh region, the
constraint `PL <= optimal_PL * 1.001` and the EC objective. -/
def pl_first_step2_model (p : Params) (optimalPL : ℚ) : ScheduleModel :=
  ⟨p, none, some (optimalPL * 1.001), some ModelObjective.ecObj⟩

/-- The model solved by `solve_weighted_sum`. -/
def weighted_sum_model (p : Params)
    (wEC wPL ECideal PLideal ECnorm PLnorm : ℚ) : ScheduleModel :=
  ⟨p, none, none,
    some (ModelObjective.weightedObj wEC wPL ECideal PLideal ECnorm PLnorm)⟩

/-- The model solved by `solve_compromise_programming`. -/
def compromise_model (p : Params) (wEC wPL ECideal PLideal : ℚ) :
    ScheduleModel :=
  ⟨p, none, none, some (ModelObjective.compromiseObj wEC wPL ECideal PLideal)⟩

/-- The assignments satisfying a strategy model: the base region plus any
cap constraint the strategy added. -/
def model_feasible (m : ScheduleModel) (a : Assign) : Bool :=
  feasibleB m.params a &&
  (match m.ecCap with
   | none => true
   | some b => decide (calculate_EC_expression m.params a ≤ b)) &&
  (match m.plCap with
   | none => true
   | some b => decide (a.PL ≤ b))

/-- `OptimizationApproaches.solve_preemptive_EC_first`, parameterized by
the solver: minimize EC; on failure return `None`; otherwise rebuild with
the `EC <= EC* * 1.001` cap, minimize PL, and return the extraction of the
second solve. -/
def solve_preemptive_EC_first (p : Params)
    (solver : ScheduleModel → SolveOutcome) : Option StratResults :=
  if (solver (ec_only_model p)).status ≠ LpStatus.optimal then none
  else
    extract_results p
      (solver (ec_first_step2_model p (solver (ec_only_model p)).objValue))

/-- `OptimizationApproaches.solve_preemptive_PL_first`: symmetric, with
`optimal_PL` read from the solved PL variable. -/
def solve_preemptive_PL_first (p : Params)
    (solver : ScheduleModel → SolveOutcome) : Option StratResults :=
  if (solver (pl_only_model p)).status ≠ LpStatus.optimal then none
  else
    extract_results p
      (solver (pl_first_step2_model p (solver (pl_only_model p)).assign.PL))

/-- `OptimizationApproaches.solve_weighted_sum`: obtain normalization
factors (a zero range raises `ZeroDivisionError`, modelled by
`Except.error`), build the weighted model, solve, extract. -/
def solve_weighted_sum (p : Params) (wEC wPL : ℚ)
    (ecIdealSolve plIdealSolve : Option ℚ) (calibEC calibPL : Option (ℚ × ℚ))
    (solver : ScheduleModel → SolveOutcome) :
    Except Unit (Option StratResults) :=
  match get_normalization_factors ecIdealSolve plIdealSolve calibEC calibPL with
  | none => Except.error ()
  | some q =>
      Except.ok (extract_results p
        (solver (weighted_sum_model p wEC wPL q.1 q.2.1 q.2.2.1 q.2.2.2)))

/-- `OptimizationApproaches.solve_compromise_programming`: coerce each
ideal with `or 0.1`, build the compromise model, solve, extract. -/
def solve_compromise_programming (p : Params) (wEC wPL : ℚ)
    (ecIdealSolve plIdealSolve : Option ℚ)
    (solver : ScheduleModel → SolveOutcome) : Option StratResults :=
  extract_results p
    (solver (compromise_model p wEC wPL (pyOr ecIdealSolve 0.1)
      (pyOr plIdealSolve 0.1)))

/-! Concrete instances used by counterexamples and witnesses. -/

/-- A two-machine, two-slot, one-system instance in which machine 2
depends on machine 1. -/
def pDep : Params where
  I := 2
  T := 2
  S := 1
  R := fun q => if q = (1, 1) then some 1 else if q = (2, 1) then some 1 else none
  N := fun q => if q = (2, 1) then some 1 else none
  E := fun q => if q = (2, 1) then some 1 else none
  L := fun q => if q = (2, 1) then some 2 else none
  c := fun _ => none
  o := fun _ => none
  alpha := 1
  A := fun _ => 100
  deps := [((2, 1), 1)]

/-- Assignment for `pDep` in which the predecessor machine 1 never runs,
its completed flag `u` is 1 from the start, and the dependent machine 2
runs at slot 1. -/
def aDepViol : Assign where
  x := fun i t s => if (i, t, s) = (2, 1, 1) then 1 else 0
  y := fun _ _ _ => 0
  u := fun i t s => if i = 1 then 1 else if (i, t, s) = (2, 2, 1) then 1 else 0
  e := fun t => if t = 1 then 1 else 0
  PL := 1

/-- Assignment for `pDep` in which machine 1 runs at slot 1, shuts down,
and the dependent machine 2 runs at slot 2. -/
def aDepOk : Assign where
  x := fun i t s =>
    if (i, t, s) = (1, 1, 1) then 1 else if (i, t, s) = (2, 2, 1) then 1 else 0
  y := fun _ _ _ => 0
  u := fun i t s => if (i, t, s) = (1, 2, 1) then 1 else 0
  e := fun _ => 1
  PL := 1

/-- A one-machine, three-slot instance. -/
def pSingle : Params where
  I := 1
  T := 3
  S := 1
  R := fun q => if q = (1, 1) then some 1 else none
  N := fun _ => none
  E := fun _ => none
  L := fun _ => none
  c := fun _ => none
  o := fun _ => none
  alpha := 1
  A := fun _ => 100
  deps := []

/-- Feasible assignment for `pSingle`: the machine runs at slot 1 only. -/
def aSingle : Assign where
  x := fun i t s => if (i, t, s) = (1, 1, 1) then 1 else 0
  y := fun _ _ _ => 0
  u := fun i t s => if i = 1 ∧ 2 ≤ t ∧ s = 1 then 1 else 0
  e := fun t => if t = 1 then 1 else 0
  PL := 1

/-- A one-machine instance with no entry in the rated-power mapping. -/
def pNone : Params where
  I := 1
  T := 1
  S := 1
  R := fun _ => none
  N := fun _ => none
  E := fun _ => none
  L := fun _ => none
  c := fun _ => none
  o := fun _ => none
  alpha := 1
  A := fun _ => 100
  deps := []

/-- The empty instance: no machines, slots or systems. -/
def pEmpty : Params where
  I := 0
  T := 0
  S := 0
  R := fun _ => none
  N := fun _ => none
  E := fun _ => none
  L := fun _ => none
  c := fun _ => none
  o := fun _ => none
  alpha := 1
  A := fun _ => 0
  deps := []

/-- The all-zero assignment. -/
def aZero : Assign where
  x := fun _ _ _ => 0
  y := fun _ _ _ => 0
  u := fun _ _ _ => 0
  e := fun _ => 0
  PL := 0

/-- A solver that reports every model optimal with the all-zero
assignment. -/
def optSolver : ScheduleModel → SolveOutcome :=
  fun _ => ⟨LpStatus.optimal, aZero, 0⟩

/-- A non-optimal solve outcome. -/
def badOutcome : SolveOutcome := ⟨LpStatus.notSolved, aZero, 0⟩

/-- A one-machine, one-slot instance with a forced run, zero price and an
incentive of 2: claiming the incentive yields a negative electricity
cost. -/
def pCE : Params where
  I := 1
  T := 1
  S := 1
  R := fun q => if q = (1, 1) then some 1 else none
  N := fun q => if q = (1, 1) then some 1 else none
  E := fun q => if q = (1, 1) then some 1 else none
  L := fun q => if q = (1, 1) then some 1 else none
  c := fun t => if t = 1 then some 0 else none
  o := fun t => if t = 1 then some 2 else none
  alpha := 1
  A := fun _ => 100
  deps := []

/-- Feasible point of `pCE` that does not claim the incentive: EC 0. -/
def aY0 : Assign where
  x := fun i t s => if (i, t, s) = (1, 1, 1) then 1 else 0
  y := fun _ _ _ => 0
  u := fun _ _ _ => 0
  e := fun t => if t = 1 then 1 else 0
  PL := 1

/-- Feasible point of `pCE` that claims the incentive: EC -2, the EC
optimum. -/
def aY1 : Assign where
  x := fun i t s => if (i, t, s) = (1, 1, 1) then 1 else 0
  y := fun i t s => if (i, t, s) = (1, 1, 1) then 1 else 0
  u := fun _ _ _ => 0
  e := fun t => if t = 1 then 1 else 0
  PL := 1

/-! Theorems. -/

theorem mem_rng1 {n m : ℕ} : m ∈ rng1 n ↔ 1 ≤ m ∧ m ≤ n := by
  simp only [rng1, List.mem_range'_1]
  omega

section FeasibleFacts

variable {p : Params} {a : Assign} {i s t : ℕ}

theorem feasibleB_parts (h : feasibleB p a = true) :
    binariesOk p a = true ∧ energyOk p a = true ∧ peakOk p a = true ∧
    budgetOk p a = true ∧ durationOk p a = true ∧
    uninterruptOk p a = true ∧ depsOk p a = true ∧
    incentiveOk p a = true ∧ boundsOk p a = true := by
  simp only [feasibleB, Bool.and_eq_true] at h
  exact ⟨h.1.1.1.1.1.1.1.1, h.1.1.1.1.1.1.1.2, h.1.1.1.1.1.1.2,
    h.1.1.1.1.1.2, h.1.1.1.1.2, h.1.1.1.2, h.1.1.2, h.1.2, h.2⟩

theorem feasible_x_binary (h : feasibleB p a = true)
    (hi1 : 1 ≤ i) (hi2 : i ≤ p.I) (ht1 : 1 ≤ t) (ht2 : t ≤ p.T)
    (hs1 : 1 ≤ s) (hs2 : s ≤ p.S) : a.x i t s = 0 ∨ a.x i t s = 1 := by
  have hb := (feasibleB_parts h).1
  have h1 := List.all_eq_true.mp hb i (mem_rng1.mpr ⟨hi1, hi2⟩)
  have h2 := List.all_eq_true.mp h1 t (mem_rng1.mpr ⟨ht1, ht2⟩)
  have h3 := List.all_eq_true.mp h2 s (mem_rng1.mpr ⟨hs1, hs2⟩)
  simp only [isBinary, Bool.and_eq_true, Bool.or_eq_true,
    decide_eq_true_eq] at h3
  exact h3.1.1

theorem feasible_u_binary (h : feasibleB p a = true)
    (hi1 : 1 ≤ i) (hi2 : i ≤ p.I) (ht1 : 1 ≤ t) (ht2 : t ≤ p.T)
    (hs1 : 1 ≤ s) (hs2 : s ≤ p.S) : a.u i t s = 0 ∨ a.u i t s = 1 := by
  have hb := (feasibleB_parts h).1
  have h1 := List.all_eq_true.mp hb i (mem_rng1.mpr ⟨hi1, hi2⟩)
  have h2 := List.all_eq_true.mp h1 t (mem_rng1.mpr ⟨ht1, ht2⟩)
  have h3 := List.all_eq_true.mp h2 s (mem_rng1.mpr ⟨hs1, hs2⟩)
  simp only [isBinary, Bool.and_eq_true, Bool.or_eq_true,
    decide_eq_true_eq] at h3
  exact h3.2

theorem feasible_x_le_one_sub_u (h : feasibleB p a = true)
    (hi1 : 1 ≤ i) (hi2 : i ≤ p.I) (ht1 : 1 ≤ t) (ht2 : t ≤ p.T)
    (hs1 : 1 ≤ s) (hs2 : s ≤ p.S) : a.x i t s ≤ 1 - a.u i t s := by
  have hb := (feasibleB_parts h).2.2.2.2.2.1
  have h1 := List.all_eq_true.mp hb s (mem_rng1.mpr ⟨hs1, hs2⟩)
  have h2 := List.all_eq_true.mp h1 i (mem_rng1.mpr ⟨hi1, hi2⟩)
  have h3 := List.all_eq_true.mp h2 t (mem_rng1.mpr ⟨ht1, ht2⟩)
  simp only [Bool.and_eq_true, decide_eq_true_eq] at h3
  exact h3.1

theorem feasible_shutdown_step (h : feasibleB p a = true)
    (hi1 : 1 ≤ i) (hi2 : i ≤ p.I) (ht1 : 2 ≤ t) (ht2 : t ≤ p.T)
    (hs1 : 1 ≤ s) (hs2 : s ≤ p.S) :
    a.x i (t - 1) s - a.x i t s ≤ a.u i t s := by
  have hb := (feasibleB_parts h).2.2.2.2.2.1
  have h1 := List.all_eq_true.mp hb s (mem_rng1.mpr ⟨hs1, hs2⟩)
  have h2 := List.all_eq_true.mp h1 i (mem_rng1.mpr ⟨hi1, hi2⟩)
  have h3 := List.all_eq_true.mp h2 t (mem_rng1.mpr ⟨Nat.one_le_of_lt ht1, ht2⟩)
  simp only [Bool.and_eq_true, decide_eq_true_eq] at h3
  rw [if_pos ht1] at h3
  simp only [Bool.and_eq_true, decide_eq_true_eq] at h3
  exact h3.2.1

theorem feasible_u_mono_step (h : feasibleB p a = true)
    (hi1 : 1 ≤ i) (hi2 : i ≤ p.I) (ht1 : 2 ≤ t) (ht2 : t ≤ p.T)
    (hs1 : 1 ≤ s) (hs2 : s ≤ p.S) : a.u i (t - 1) s ≤ a.u i t s := by
  have hb := (feasibleB_parts h).2.2.2.2.2.1
  have h1 := List.all_eq_true.mp hb s (mem_rng1.mpr ⟨hs1, hs2⟩)
  have h2 := List.all_eq_true.mp h1 i (mem_rng1.mpr ⟨hi1, hi2⟩)
  have h3 := List.all_eq_true.mp h2 t (mem_rng1.mpr ⟨Nat.one_le_of_lt ht1, ht2⟩)
  simp only [Bool.and_eq_true, decide_eq_true_eq] at h3
  rw [if_pos ht1] at h3
  simp only [Bool.and_eq_true, decide_eq_true_eq] at h3
  exact h3.2.2

theorem feasible_u_mono (h : feasibleB p a = true)
    (hi1 : 1 ≤ i) (hi2 : i ≤ p.I) (hs1 : 1 ≤ s) (hs2 : s ≤ p.S)
    {t' : ℕ} (ht1 : 1 ≤ t) (hle : t ≤ t') (ht2 : t' ≤ p.T) :
    a.u i t s ≤ a.u i t' s := by
  induction t', hle using Nat.le_induction with
  | base => exact le_refl _
  | succ k hk ih =>
      have hk2 : k ≤ p.T := Nat.le_of_succ_le ht2
      have hstep := feasible_u_mono_step h hi1 hi2
        (show 2 ≤ k + 1 by omega) ht2 hs1 hs2
      simp only [Nat.add_sub_cancel] at hstep
      exact le_trans (ih hk2) hstep

theorem feasible_dep_le (h : feasibleB p a = true)
    {istar : ℕ} (hd : ((i, s), istar) ∈ p.deps)
    (ht1 : 1 ≤ t) (ht2 : t ≤ p.T) :
    a.x i t s ≤ a.u istar t s := by
  have hb := (feasibleB_parts h).2.2.2.2.2.2.1
  have h1 := List.all_eq_true.mp hb _ hd
  have h2 := List.all_eq_true.mp h1 t (mem_rng1.mpr ⟨ht1, ht2⟩)
  simpa using h2

theorem feasible_PL_nonneg (h : feasibleB p a = true) : 0 ≤ a.PL := by
  have hb := (feasibleB_parts h).2.2.2.2.2.2.2.2
  simp only [boundsOk, Bool.and_eq_true, decide_eq_true_eq] at hb
  exact hb.2

/-- From an on-slot followed later by an off-slot, the completed flag is
set at the off-slot: the shutdown was detected by constraint family (8)
and propagated by monotonicity (9). -/
theorem feasible_shutdown (h : feasibleB p a = true)
    (hi1 : 1 ≤ i) (hi2 : i ≤ p.I) (hs1 : 1 ≤ s) (hs2 : s ≤ p.S)
    {t1 t2 : ℕ} (h1 : 1 ≤ t1) (h12 : t1 < t2) (h2 : t2 ≤ p.T)
    (hx1 : a.x i t1 s = 1) (hx2 : a.x i t2 s = 0) :
    1 ≤ a.u i t2 s := by
  induction t2, h12 using Nat.le_induction with
  | base =>
      have hstep := feasible_shutdown_step h hi1 hi2
        (show 2 ≤ t1 + 1 by omega) h2 hs1 hs2
      simp only [Nat.add_sub_cancel] at hstep
      rw [hx1, hx2] at hstep
      linarith
  | succ k hk ih =>
      have hk2 : k ≤ p.T := Nat.le_of_succ_le h2
      rcases feasible_x_binary h hi1 hi2 (by omega) hk2 hs1 hs2
        (t := k) with hx0 | hx1'
      · have hu := ih hk2 hx0
        have hstep := feasible_u_mono_step h hi1 hi2
          (show 2 ≤ k + 1 by omega) h2 hs1 hs2
        simp only [Nat.add_sub_cancel] at hstep
        linarith
      · have hstep := feasible_shutdown_step h hi1 hi2
          (show 2 ≤ k + 1 by omega) h2 hs1 hs2
        simp only [Nat.add_sub_cancel] at hstep
        rw [hx1', hx2] at hstep
        linarith

end FeasibleFacts

theorem rng1_one : rng1 1 = [1] := by rfl

theorem rng1_two : rng1 2 = [1, 2] := by rfl

theorem rng1_three : rng1 3 = [1, 2, 3] := by rfl

theorem aDepViol_feasible : feasibleB pDep aDepViol = true := by
  simp only [feasibleB, binariesOk, energyOk, peakOk, boundsOk, budgetOk,
    durationOk, uninterruptOk, depsOk, incentiveOk, pDep, aDepViol,
    rng1_one, rng1_two, List.all_cons, List.all_nil, List.map_cons,
    List.map_nil, List.sum_cons, List.sum_nil, Rget, cget, oget, Nget,
    isBinary, Bool.and_eq_true, Bool.or_eq_true, decide_eq_true_eq,
    Prod.mk.injEq]
  norm_num [List.range']

theorem aDepOk_feasible : feasibleB pDep aDepOk = true := by
  simp only [feasibleB, binariesOk, energyOk, peakOk, boundsOk, budgetOk,
    durationOk, uninterruptOk, depsOk, incentiveOk, pDep, aDepOk,
    rng1_one, rng1_two, List.all_cons, List.all_nil, List.map_cons,
    List.map_nil, List.sum_cons, List.sum_nil, Rget, cget, oget, Nget,
    isBinary, Bool.and_eq_true, Bool.or_eq_true, decide_eq_true_eq,
    Prod.mk.injEq]
  norm_num [List.range']

/-- C1 (counterexample): the claim fails on the code. The precedence
constraint `x[i,t,s] <= u[i*,t,s]` does not force the predecessor to have
completed an actual run, because nothing forces `u[i*]` to 0 when the
predecessor never runs at all. `aDepViol` is feasible for the full base
region of `pDep`, machine 2 is on at slot 1, yet machine 1 has no on-slot
anywhere, hence no completed run ending at or before that slot. -/
theorem C1_precedence_counterexample :
    feasibleB pDep aDepViol = true ∧
    ((2, 1), 1) ∈ pDep.deps ∧
    aDepViol.x 2 1 1 = 1 ∧
    aDepViol.x 1 1 1 = 0 ∧ aDepViol.x 1 2 1 = 0 ∧
    completed_run_by aDepViol 1 1 1 = false ∧
    completed_run_by aDepViol 1 1 2 = false :=
  ⟨aDepViol_feasible, by decide, by decide, by decide, by decide,
    by decide, by decide⟩

/-- C1 (amended): for every feasible assignment of the base region and
every registered dependency `(i, s) -> i*` with `i*` in machine range,
whenever the dependent machine is on at slot `t`, the predecessor is off
at every slot `t' ≥ t` within the horizon. Hence any actual run of the
predecessor is completed strictly before `t`; the constraint does not,
however, force the predecessor to have run at all. -/
theorem C1_precedence_predecessor_off (p : Params) (a : Assign)
    (i s istar t t' : ℕ)
    (h : feasibleB p a = true)
    (hd : ((i, s), istar) ∈ p.deps)
    (hstar1 : 1 ≤ istar) (hstar2 : istar ≤ p.I)
    (hs1 : 1 ≤ s) (hs2 : s ≤ p.S)
    (ht1 : 1 ≤ t) (htt : t ≤ t') (ht2 : t' ≤ p.T)
    (hx : a.x i t s = 1) :
    a.x istar t' s = 0 := by
  have htT : t ≤ p.T := le_trans htt ht2
  have hdep := feasible_dep_le h hd ht1 htT
  rw [hx] at hdep
  have hmono := feasible_u_mono h hstar1 hstar2 hs1 hs2 ht1 htt ht2
  have hx_le := feasible_x_le_one_sub_u h hstar1 hstar2
    (le_trans ht1 htt) ht2 hs1 hs2
  rcases feasible_x_binary h hstar1 hstar2 (le_trans ht1 htt) ht2 hs1 hs2
    (t := t') with h0 | h1
  · exact h0
  · rw [h1] at hx_le
    linarith

/-- C1 (witness): in the feasible assignment `aDepOk`, machine 2 runs at
slot 2 after machine 1 ran at slot 1 and shut down; the theorem applies
and yields that machine 1 is off at slot 2. -/
theorem C1_precedence_witness :
    feasibleB pDep aDepOk = true ∧ aDepOk.x 1 2 1 = 0 :=
  ⟨aDepOk_feasible,
    C1_precedence_predecessor_off pDep aDepOk 2 1 1 2 2 aDepOk_feasible
      (by decide) (by decide) (by decide) (by decide) (by decide)
      (by decide) (by decide) (by decide) (by decide)⟩

/-- C2: for every feasible assignment of the base region, the on-slots of
a machine form at most one contiguous block. Once the machine is on at
`t1` and off at a later slot `t2`, it stays off at every later slot `t3`:
the three uninterruptible-operation constraint families exclude any
on-then-off-then-on pattern. -/
theorem C2_single_contiguous_run (p : Params) (a : Assign)
    (i s t1 t2 t3 : ℕ)
    (h : feasibleB p a = true)
    (hi1 : 1 ≤ i) (hi2 : i ≤ p.I) (hs1 : 1 ≤ s) (hs2 : s ≤ p.S)
    (h1 : 1 ≤ t1) (h12 : t1 < t2) (h23 : t2 < t3) (h3 : t3 ≤ p.T)
    (hx1 : a.x i t1 s = 1) (hx2 : a.x i t2 s = 0) :
    a.x i t3 s = 0 := by
  have h2T : t2 ≤ p.T := le_of_lt (lt_of_lt_of_le h23 h3)
  have hu2 := feasible_shutdown h hi1 hi2 hs1 hs2 h1 h12 h2T hx1 hx2
  have hmono := feasible_u_mono h hi1 hi2 hs1 hs2
    (show 1 ≤ t2 by omega) (le_of_lt h23) h3
  have hx_le := feasible_x_le_one_sub_u h hi1 hi2
    (show 1 ≤ t3 by omega) h3 hs1 hs2
  rcases feasible_x_binary h hi1 hi2 (show 1 ≤ t3 by omega) h3 hs1 hs2
    (t := t3) with h0 | hone
  · exact h0
  · rw [hone] at hx_le
    linarith

theorem aSingle_feasible : feasibleB pSingle aSingle = true := by
  simp only [feasibleB, binariesOk, energyOk, peakOk, boundsOk, budgetOk,
    durationOk, uninterruptOk, depsOk, incentiveOk, pSingle, aSingle,
    rng1_one, rng1_three, List.all_cons, List.all_nil, List.map_cons,
    List.map_nil, List.sum_cons, List.sum_nil, Rget, cget, oget, Nget,
    isBinary, Bool.and_eq_true, Bool.or_eq_true, decide_eq_true_eq,
    Prod.mk.injEq]
  norm_num

/-- C2 (witness): the machine of `pSingle` is on at slot 1 and off at
slot 2 in the feasible assignment `aSingle`; the theorem forces it off at
slot 3. -/
theorem C2_single_run_witness :
    feasibleB pSingle aSingle = true ∧ aSingle.x 1 3 1 = 0 :=
  ⟨aSingle_feasible,
    C2_single_contiguous_run pSingle aSingle 1 1 1 2 3 aSingle_feasible
      (by decide) (by decide) (by decide) (by decide) (by decide)
      (by decide) (by decide) (by decide) (by decide) (by decide)⟩

theorem nadir_fix_gt {ideal raw : ℚ} (h0 : 0 ≤ ideal) (hle : ideal ≤ raw) :
    ideal < nadir_fix ideal raw := by
  by_cases hr : raw = ideal
  · rw [nadir_fix, if_pos hr]
    linarith
  · rw [nadir_fix, if_neg hr]
    exact lt_of_le_of_ne hle (Ne.symm hr)

theorem nadir_fix_ne {ideal raw : ℚ} (h : ideal ≠ -1) :
    nadir_fix ideal raw ≠ ideal := by
  by_cases hr : raw = ideal
  · rw [nadir_fix, if_pos hr]
    intro hc
    apply h
    linarith
  · rw [nadir_fix, if_neg hr]
    exact hr

theorem fallback_ge {EI : ℚ} (h0 : 0 ≤ EI) (d : ℚ) (hd : 0 ≤ d) :
    EI ≤ if EI = 0 then d else EI * 2 := by
  by_cases h : EI = 0
  · rw [if_pos h, h]
    exact hd
  · rw [if_neg h]
    have : 0 < EI := lt_of_le_of_ne h0 (Ne.symm h)
    linarith

theorem nadir_raw_ge_EC {EI PI : ℚ} (h0 : 0 ≤ EI)
    (cE cP : Option (ℚ × ℚ))
    (hcE : calibration_at_least cE EI PI = true)
    (hcP : calibration_at_least cP EI PI = true) :
    EI ≤ (nadir_raw EI PI cE cP).1 := by
  rcases cE with _ | vE <;> rcases cP with _ | vP <;>
    simp only [nadir_raw, calibration_at_least, Bool.and_eq_true,
      decide_eq_true_eq] at hcE hcP ⊢
  · exact fallback_ge h0 100 (by norm_num)
  · exact fallback_ge h0 100 (by norm_num)
  · exact fallback_ge h0 100 (by norm_num)
  · exact le_trans hcP.1 (le_max_left _ _)

theorem nadir_raw_ge_PL {EI PI : ℚ} (h0 : 0 ≤ PI)
    (cE cP : Option (ℚ × ℚ))
    (hcE : calibration_at_least cE EI PI = true)
    (hcP : calibration_at_least cP EI PI = true) :
    PI ≤ (nadir_raw EI PI cE cP).2 := by
  rcases cE with _ | vE <;> rcases cP with _ | vP <;>
    simp only [nadir_raw, calibration_at_least, Bool.and_eq_true,
      decide_eq_true_eq] at hcE hcP ⊢
  · exact fallback_ge h0 20 (by norm_num)
  · exact fallback_ge h0 20 (by norm_num)
  · exact fallback_ge h0 20 (by norm_num)
  · exact le_trans hcE.2 (le_max_left _ _)

/-- C3 (counterexample): the claim fails on the code for a negative EC
ideal. With EC ideal -10 and both calibration solves reporting EC -10
(consistent outcomes: the cross value cannot be below the minimum -10,
and 1.5 times a negative optimum is smaller), the raw nadir equals the
ideal and the perturbation sets the nadir to `-10 * 1.1 + 0.1 = -10.9`,
strictly below the ideal. -/
theorem C3_nadir_counterexample :
    (get_nadir_points (some (-10)) (some 2) (some (-10, 5))
      (some (-10, 2))).2.2.1 <
    (get_nadir_points (some (-10)) (some 2) (some (-10, 5))
      (some (-10, 2))).1 := by
  norm_num [get_nadir_points, nadir_raw, nadir_fix, pyOr, max_def]

/-- C3 (amended): whenever the coerced ideals are nonnegative and each
calibration outcome, when present, reports objective values at least the
corresponding (coerced) ideal — which holds for any exact solver since
the ideal is the minimum over the same region — `get_nadir_points`
returns `EC_nadir > EC_ideal` and `PL_nadir > PL_ideal` strictly. For a
negative ideal the guarantee fails (see the counterexample). -/
theorem C3_nadir_strictly_above_ideal (eS pS : Option ℚ)
    (cE cP : Option (ℚ × ℚ))
    (hE : 0 ≤ pyOr eS 0) (hP : 0 ≤ pyOr pS 0)
    (hcE : calibration_at_least cE (pyOr eS 0) (pyOr pS 0) = true)
    (hcP : calibration_at_least cP (pyOr eS 0) (pyOr pS 0) = true) :
    (get_nadir_points eS pS cE cP).1 <
      (get_nadir_points eS pS cE cP).2.2.1 ∧
    (get_nadir_points eS pS cE cP).2.1 <
      (get_nadir_points eS pS cE cP).2.2.2 := by
  constructor
  · exact nadir_fix_gt hE (nadir_raw_ge_EC hE cE cP hcE hcP)
  · exact nadir_fix_gt hP (nadir_raw_ge_PL hP cE cP hcE hcP)

/-- C3 (witness): concrete nonnegative calibration outcomes satisfying
the hypotheses, for which both nadirs are strictly above the ideals. -/
theorem C3_nadir_witness :
    (get_nadir_points (some 4) (some 2) (some (4, 7)) (some (5, 2))).1 <
      (get_nadir_points (some 4) (some 2) (some (4, 7)) (some (5, 2))).2.2.1 ∧
    (get_nadir_points (some 4) (some 2) (some (4, 7)) (some (5, 2))).2.1 <
      (get_nadir_points (some 4) (some 2) (some (4, 7)) (some (5, 2))).2.2.2 :=
  C3_nadir_strictly_above_ideal (some 4) (some 2) (some (4, 7)) (some (5, 2))
    (by norm_num [pyOr]) (by norm_num [pyOr])
    (by norm_num [calibration_at_least, pyOr])
    (by norm_num [calibration_at_least, pyOr])

/-- C5 (counterexample): the claim fails on the code at EC ideal exactly
-1. The raw EC nadir equals the ideal, the perturbation computes
`-1 * 1.1 + 0.1 = -1` — the ideal again — and
`get_normalization_factors` divides by exactly zero (`none` models the
Python `ZeroDivisionError`). -/
theorem C5_div_zero_counterexample :
    get_normalization_factors (some (-1)) (some 2) (some (-1, 3))
      (some (-1, 2)) = none := by
  norm_num [get_normalization_factors, get_nadir_points, nadir_raw,
    nadir_fix, pyOr, max_def]

/-- C5 (amended): the compromise-programming deviation denominators
`max(ideal, 0.001)` are always strictly positive, and the
normalization-factor division never hits a zero denominator provided
neither coerced ideal is exactly -1 (at -1 the equal-case perturbation is
a fixed point and the denominator is exactly zero; see the
counterexample). -/
theorem C5_no_zero_denominator (eS pS : Option ℚ)
    (cE cP : Option (ℚ × ℚ)) :
    (pyOr eS 0 ≠ -1 → pyOr pS 0 ≠ -1 →
      (get_normalization_factors eS pS cE cP).isSome = true) ∧
    0 < compromise_EC_denominator eS ∧
    0 < compromise_PL_denominator pS := by
  refine ⟨fun hE hP => ?_, ?_, ?_⟩
  · have h1 : (get_nadir_points eS pS cE cP).2.2.1 -
        (get_nadir_points eS pS cE cP).1 ≠ 0 := by
      simp only [get_nadir_points]
      exact sub_ne_zero_of_ne (nadir_fix_ne hE)
    have h2 : (get_nadir_points eS pS cE cP).2.2.2 -
        (get_nadir_points eS pS cE cP).2.1 ≠ 0 := by
      simp only [get_nadir_points]
      exact sub_ne_zero_of_ne (nadir_fix_ne hP)
    rw [get_normalization_factors, if_neg h1, if_neg h2]
    rfl
  · exact lt_of_lt_of_le (by norm_num) (le_max_right _ _)
  · exact lt_of_lt_of_le (by norm_num) (le_max_right _ _)

/-- C5 (witness): at ideals 4 and 2 with consistent calibration outcomes
the normalization factors are computed without any zero denominator, and
the compromise denominators are positive. -/
theorem C5_no_zero_denominator_witness :
    (get_normalization_factors (some 4) (some 2) (some (4, 7))
      (some (5, 2))).isSome = true ∧
    0 < compromise_EC_denominator (some 4) ∧
    0 < compromise_PL_denominator (some 2) :=
  ⟨(C5_no_zero_denominator (some 4) (some 2) (some (4, 7))
      (some (5, 2))).1 (by norm_num [pyOr]) (by norm_num [pyOr]),
   (C5_no_zero_denominator (some 4) (some 2) (some (4, 7))
      (some (5, 2))).2.1,
   (C5_no_zero_denominator (some 4) (some 2) (some (4, 7))
      (some (5, 2))).2.2⟩

/-- C7: when both calibration solves are optimal, each returned nadir is
`max(cross-value, own-value * 1.5)` — `EC_nadir` from the EC value at the
PL optimum and 1.5 times the EC value at the EC optimum, `PL_nadir`
symmetrically — except when that max equals the ideal, in which case the
equal-case perturbation `ideal * 1.1 + 0.1` is applied afterwards. -/
theorem C7_nadir_max_formula (eS pS : Option ℚ) (ecE plE ecP plP : ℚ) :
    ((get_nadir_points eS pS (some (ecE, plE)) (some (ecP, plP))).2.2.1 =
        max ecP (ecE * 1.5) ∨
      (max ecP (ecE * 1.5) = pyOr eS 0 ∧
        (get_nadir_points eS pS (some (ecE, plE)) (some (ecP, plP))).2.2.1 =
          pyOr eS 0 * 1.1 + 0.1)) ∧
    ((get_nadir_points eS pS (some (ecE, plE)) (some (ecP, plP))).2.2.2 =
        max plE (plP * 1.5) ∨
      (max plE (plP * 1.5) = pyOr pS 0 ∧
        (get_nadir_points eS pS (some (ecE, plE)) (some (ecP, plP))).2.2.2 =
          pyOr pS 0 * 1.1 + 0.1)) := by
  simp only [get_nadir_points, nadir_raw, nadir_fix]
  constructor
  · by_cases h : max ecP (ecE * 1.5) = pyOr eS 0
    · exact Or.inr ⟨h, by rw [if_pos h]⟩
    · exact Or.inl (by rw [if_neg h])
  · by_cases h : max plE (plP * 1.5) = pyOr pS 0
    · exact Or.inr ⟨h, by rw [if_pos h]⟩
    · exact Or.inl (by rw [if_neg h])

/-- C10: an ideal of exactly 0 is indistinguishable from a failed (None)
ideal solve. `get_nadir_points` returns identical results for `some 0`
and `none`; in the fallback branch a zero ideal selects the fixed
defaults 100 (EC) and 20 (PL) instead of `ideal * 2`; and
`solve_compromise_programming` coerces both `some 0` and `none` to the
same 0.1 ideal, so a genuinely zero-cost optimum always takes the
unavailable-ideal fallback path. -/
theorem C10_zero_ideal_like_failed (eS pS : Option ℚ)
    (cE cP : Option (ℚ × ℚ)) (p : Params) (wEC wPL : ℚ)
    (solver : ScheduleModel → SolveOutcome) :
    get_nadir_points (some 0) pS cE cP = get_nadir_points none pS cE cP ∧
    get_nadir_points eS (some 0) cE cP = get_nadir_points eS none cE cP ∧
    (get_nadir_points (some 0) pS none cP).2.2.1 = 100 ∧
    (get_nadir_points eS (some 0) cE none).2.2.2 = 20 ∧
    pyOr (some 0) (1 / 10) = pyOr none (1 / 10) ∧
    solve_compromise_programming p wEC wPL (some 0) pS solver =
      solve_compromise_programming p wEC wPL none pS solver ∧
    solve_compromise_programming p wEC wPL eS (some 0) solver =
      solve_compromise_programming p wEC wPL eS none solver := by
  refine ⟨?_, ?_, ?_, ?_, ?_, ?_, ?_⟩
  · simp [get_nadir_points, pyOr]
  · simp [get_nadir_points, pyOr]
  · rcases cP with _ | vP <;>
      norm_num [get_nadir_points, nadir_raw, nadir_fix, pyOr]
  · rcases cE with _ | vE <;>
      norm_num [get_nadir_points, nadir_raw, nadir_fix, pyOr]
  · norm_num [pyOr]
  · simp [solve_compromise_programming, pyOr]
  · simp [solve_compromise_programming, pyOr]

theorem rng1_zero : rng1 0 = [] := by rfl

/-- C4 (counterexample): the claim fails on the code. `build_base_model`
creates the per-slot variables over the full `(i, t, s)` cross product,
so the index `(1, 1, 1)` receives variables even though `(1, 1)` is
absent from the rated-power mapping of `pNone`. -/
theorem C4_variables_counterexample :
    (1, 1, 1) ∈ variable_indices 1 1 1 ∧ pNone.R (1, 1) = none := by
  exact ⟨by decide, rfl⟩

/-- C4 (amended): the per-slot variables are created for every triple of
the full index cross product `[1..I] x [1..T] x [1..S]`, independently of
`R`; a pair missing from `R` is not excluded from the variables but
contributes rated power 0 (`R.get((i,s),0)`) to every expression, and the
result extractor omits such pairs from the schedule table. No error is
raised either way. -/
theorem C4_variables_full_grid (I T S : ℕ) (p : Params) (a : Assign)
    (i t s : ℕ) :
    ((i, t, s) ∈ variable_indices I T S ↔
      (1 ≤ i ∧ i ≤ I ∧ 1 ≤ t ∧ t ≤ T ∧ 1 ≤ s ∧ s ≤ S)) ∧
    (p.R (i, s) = none → Rget p i s = 0) ∧
    (∀ r, r ∈ extract_schedule p a →
      (p.R (r.machineID, r.systemID)).isSome = true) := by
  refine ⟨?_, ?_, ?_⟩
  · simp only [variable_indices, List.mem_flatMap, List.mem_map, mem_rng1,
      Prod.mk.injEq]
    constructor
    · rintro ⟨i', ⟨hi1, hi2⟩, t', ⟨ht1, ht2⟩, s', ⟨hs1, hs2⟩, h1, h2, h3⟩
      subst h1
      subst h2
      subst h3
      exact ⟨hi1, hi2, ht1, ht2, hs1, hs2⟩
    · rintro ⟨hi1, hi2, ht1, ht2, hs1, hs2⟩
      exact ⟨i, ⟨hi1, hi2⟩, t, ⟨ht1, ht2⟩, s, ⟨hs1, hs2⟩, rfl, rfl, rfl⟩
  · intro h
    simp [Rget, h]
  · intro r hr
    simp only [extract_schedule, List.mem_flatMap, List.mem_filterMap] at hr
    obtain ⟨s', hs', i', hi', t', ht', hopt⟩ := hr
    by_cases hR : (p.R (i', s')).isSome
    · rw [if_pos hR] at hopt
      have heq := Option.some.inj hopt
      by_cases hx : a.x i' t' s' > 0.5
      · rw [if_pos hx] at heq
        subst heq
        exact hR
      · rw [if_neg hx] at heq
        subst heq
        exact hR
    · rw [if_neg hR] at hopt
      exact absurd hopt (by simp)

/-- C4 (witness): the full grid contains `(1, 1, 1)` for a 2-machine
2-slot instance; a pair absent from `R` gets rated power 0; and a record
extracted for `pDep` names a pair present in `R`. -/
theorem C4_variables_witness :
    (1, 1, 1) ∈ variable_indices 2 2 1 ∧ Rget pNone 1 1 = 0 ∧
    (pDep.R ((ScheduleRecord.mk 1 1 1 1 1).machineID,
      (ScheduleRecord.mk 1 1 1 1 1).systemID)).isSome = true :=
  ⟨(C4_variables_full_grid 2 2 1 pNone aZero 1 1 1).1.mpr (by omega),
   (C4_variables_full_grid 1 1 1 pNone aZero 1 1 1).2.1 rfl,
   (C4_variables_full_grid 2 2 1 pDep aDepOk 1 1 1).2.2
     (ScheduleRecord.mk 1 1 1 1 1)
     (by norm_num [extract_schedule, pDep, aDepOk, rng1_one, rng1_two,
       Rget, Prod.mk.injEq, List.flatMap_cons, List.flatMap_nil,
       List.filterMap_cons, List.filterMap_nil])⟩

/-- C6: when the first solve (EC alone) is optimal with value `EC*`, the
strategy returns exactly the extraction of the second solve, and the
second model is a fresh base region whose feasible set is the base region
intersected with `EC <= EC* * 1.001`, carrying the PL objective. -/
theorem C6_preemptive_EC_first_structure (p : Params)
    (solver : ScheduleModel → SolveOutcome)
    (h : (solver (ec_only_model p)).status = LpStatus.optimal) :
    solve_preemptive_EC_first p solver =
      extract_results p
        (solver (ec_first_step2_model p
          (solver (ec_only_model p)).objValue)) ∧
    (ec_first_step2_model p
      (solver (ec_only_model p)).objValue).objective =
        some ModelObjective.plObj ∧
    (∀ a, model_feasible
        (ec_first_step2_model p (solver (ec_only_model p)).objValue) a =
          true ↔
      (feasibleB p a = true ∧ calculate_EC_expression p a ≤
        (solver (ec_only_model p)).objValue * 1.001)) := by
  refine ⟨?_, rfl, fun a => ?_⟩
  · rw [solve_preemptive_EC_first, if_neg (by simp [h])]
  · simp [model_feasible, ec_first_step2_model, Bool.and_eq_true,
      decide_eq_true_eq]

/-- C6 (witness): the structure theorem applied to the empty instance and
the always-optimal solver. -/
theorem C6_preemptive_EC_first_witness :
    solve_preemptive_EC_first pEmpty optSolver =
      extract_results pEmpty
        (optSolver (ec_first_step2_model pEmpty
          (optSolver (ec_only_model pEmpty)).objValue)) ∧
    (ec_first_step2_model pEmpty
      (optSolver (ec_only_model pEmpty)).objValue).objective =
        some ModelObjective.plObj ∧
    (∀ a, model_feasible
        (ec_first_step2_model pEmpty
          (optSolver (ec_only_model pEmpty)).objValue) a = true ↔
      (feasibleB pEmpty a = true ∧ calculate_EC_expression pEmpty a ≤
        (optSolver (ec_only_model pEmpty)).objValue * 1.001)) :=
  C6_preemptive_EC_first_structure pEmpty optSolver rfl

/-- C9: result extraction returns `None` exactly when the supplied solve
status is not optimal, and each of the four strategies returns `None`
exactly when one of the solves it performs is not optimal (for the
weighted sum, given that the normalization factors were computed without
a zero-range division). -/
theorem C9_failure_propagation (p : Params)
    (solver : ScheduleModel → SolveOutcome) (outc : SolveOutcome)
    (wEC wPL : ℚ) (eS pS : Option ℚ) (cE cP : Option (ℚ × ℚ)) :
    (extract_results p outc = none ↔ outc.status ≠ LpStatus.optimal) ∧
    (solve_preemptive_EC_first p solver = none ↔
      ((solver (ec_only_model p)).status ≠ LpStatus.optimal ∨
        (solver (ec_first_step2_model p
          (solver (ec_only_model p)).objValue)).status ≠
            LpStatus.optimal)) ∧
    (solve_preemptive_PL_first p solver = none ↔
      ((solver (pl_only_model p)).status ≠ LpStatus.optimal ∨
        (solver (pl_first_step2_model p
          (solver (pl_only_model p)).assign.PL)).status ≠
            LpStatus.optimal)) ∧
    (∀ EI PI ECn PLn,
      get_normalization_factors eS pS cE cP = some (EI, PI, ECn, PLn) →
      (solve_weighted_sum p wEC wPL eS pS cE cP solver =
          Except.ok none ↔
        (solver (weighted_sum_model p wEC wPL EI PI ECn PLn)).status ≠
          LpStatus.optimal)) ∧
    (solve_compromise_programming p wEC wPL eS pS solver = none ↔
      (solver (compromise_model p wEC wPL (pyOr eS 0.1)
        (pyOr pS 0.1))).status ≠ LpStatus.optimal) := by
  refine ⟨?_, ?_, ?_, ?_, ?_⟩
  · by_cases hs : outc.status = LpStatus.optimal <;>
      simp [extract_results, hs]
  · by_cases h1 : (solver (ec_only_model p)).status = LpStatus.optimal
    · by_cases h2 : (solver (ec_first_step2_model p
          (solver (ec_only_model p)).objValue)).status = LpStatus.optimal <;>
        simp [solve_preemptive_EC_first, extract_results, h1, h2]
    · simp [solve_preemptive_EC_first, h1]
  · by_cases h1 : (solver (pl_only_model p)).status = LpStatus.optimal
    · by_cases h2 : (solver (pl_first_step2_model p
          (solver (pl_only_model p)).assign.PL)).status = LpStatus.optimal <;>
        simp [solve_preemptive_PL_first, extract_results, h1, h2]
    · simp [solve_preemptive_PL_first, h1]
  · intro EI PI ECn PLn hnf
    rw [solve_weighted_sum, hnf]
    by_cases h2 : (solver (weighted_sum_model p wEC wPL EI PI ECn PLn)).status =
        LpStatus.optimal <;>
      simp [extract_results, h2]
  · by_cases h2 : (solver (compromise_model p wEC wPL (pyOr eS 0.1)
        (pyOr pS 0.1))).status = LpStatus.optimal <;>
      simp [solve_compromise_programming, extract_results, h2]

/-- C9 (witness): the weighted-sum equivalence instantiated at concrete
calibration outcomes whose normalization factors compute to
`(1, 1, 2, 2)`, together with extraction failure on a not-solved
outcome. -/
theorem C9_failure_witness :
    (solve_weighted_sum pEmpty 1 1 (some 1) (some 1) (some (1, 1))
        (some (1, 1)) optSolver = Except.ok none ↔
      (optSolver (weighted_sum_model pEmpty 1 1 1 1 2 2)).status ≠
        LpStatus.optimal) ∧
    (extract_results pEmpty badOutcome = none ↔
      badOutcome.status ≠ LpStatus.optimal) :=
  ⟨(C9_failure_propagation pEmpty optSolver badOutcome 1 1 (some 1)
      (some 1) (some (1, 1)) (some (1, 1))).2.2.2.1 1 1 2 2
      (by norm_num [get_normalization_factors, get_nadir_points, nadir_raw,
        nadir_fix, pyOr, max_def, Prod.mk.injEq]),
   (C9_failure_propagation pEmpty optSolver badOutcome 1 1 (some 1)
      (some 1) (some (1, 1)) (some (1, 1))).1⟩

theorem aZero_pEmpty_feasible : feasibleB pEmpty aZero = true := by
  simp only [feasibleB, binariesOk, energyOk, peakOk, boundsOk, budgetOk,
    durationOk, uninterruptOk, depsOk, incentiveOk, pEmpty, aZero,
    rng1_zero, List.all_nil, Bool.and_eq_true, decide_eq_true_eq]
  norm_num

theorem EC_pEmpty (c : Assign) : calculate_EC_expression pEmpty c = 0 := by
  simp [calculate_EC_expression, pEmpty, rng1_zero]

theorem aY0_feasible : feasibleB pCE aY0 = true := by
  simp only [feasibleB, binariesOk, energyOk, peakOk, boundsOk, budgetOk,
    durationOk, uninterruptOk, depsOk, incentiveOk, pCE, aY0,
    rng1_one, List.all_cons, List.all_nil, List.map_cons, List.map_nil,
    List.sum_cons, List.sum_nil, Rget, cget, oget, Nget, isBinary,
    Bool.and_eq_true, Bool.or_eq_true, decide_eq_true_eq, Prod.mk.injEq]
  norm_num [List.range']

theorem aY1_feasible : feasibleB pCE aY1 = true := by
  simp only [feasibleB, binariesOk, energyOk, peakOk, boundsOk, budgetOk,
    durationOk, uninterruptOk, depsOk, incentiveOk, pCE, aY1,
    rng1_one, List.all_cons, List.all_nil, List.map_cons, List.map_nil,
    List.sum_cons, List.sum_nil, Rget, cget, oget, Nget, isBinary,
    Bool.and_eq_true, Bool.or_eq_true, decide_eq_true_eq, Prod.mk.injEq]
  norm_num [List.range']

/-- C8 (counterexample): the claim fails on the code when a negative EC
ideal makes the computed EC normalization factor negative. For `pCE`
(forced run, zero price, incentive 2) the EC ideal is -2 and consistent
calibration outcomes give normalization factors `(-2, 1, -10, 2)`. With
weights `(1, 0)` the weighted objective then strictly prefers the
feasible point `aY0` whose EC is strictly worse than the EC optimum
`aY1`, so the weighted-sum solve does not reproduce the EC-only ideal. -/
theorem C8_weighted_counterexample :
    get_normalization_factors (some (-2)) (some 1) (some (-2, 1))
      (some (-2, 1)) = some (-2, 1, -10, 2) ∧
    feasibleB pCE aY0 = true ∧ feasibleB pCE aY1 = true ∧
    calculate_EC_expression pCE aY1 < calculate_EC_expression pCE aY0 ∧
    weighted_objective pCE 1 0 (-2) 1 (-10) 2 aY0 <
      weighted_objective pCE 1 0 (-2) 1 (-10) 2 aY1 := by
  refine ⟨?_, aY0_feasible, aY1_feasible, ?_, ?_⟩
  · norm_num [get_normalization_factors, get_nadir_points, nadir_raw,
      nadir_fix, pyOr, max_def, Prod.mk.injEq]
  · norm_num [calculate_EC_expression, pCE, aY0, aY1, rng1_one, Rget,
      cget, oget, Prod.mk.injEq]
  · norm_num [weighted_objective, calculate_EC_expression, pCE, aY0, aY1,
      rng1_one, Rget, cget, oget, Prod.mk.injEq]

/-- C8 (amended): provided the normalization factor of the prioritized
objective is strictly positive (equivalently its nadir estimate exceeds
its ideal — true in the nonnegative-ideal regime of C3, but violated for
negative ideals), the weighted-sum objective with weights `(1, 0)` is
minimized over the base region exactly by the EC minimizers, so the
solved region attains the EC-only ideal value; symmetrically `(0, 1)`
attains the PL-only ideal. -/
theorem C8_weighted_extremes (p : Params) (EI PI ECn PLn : ℚ)
    (a b a2 b2 : Assign) :
    (0 < ECn → feasibleB p a = true →
      (∀ c, feasibleB p c = true →
        weighted_objective p 1 0 EI PI ECn PLn a ≤
          weighted_objective p 1 0 EI PI ECn PLn c) →
      feasibleB p b = true →
      (∀ c, feasibleB p c = true →
        calculate_EC_expression p b ≤ calculate_EC_expression p c) →
      calculate_EC_expression p a = calculate_EC_expression p b) ∧
    (0 < PLn → feasibleB p a2 = true →
      (∀ c, feasibleB p c = true →
        weighted_objective p 0 1 EI PI ECn PLn a2 ≤
          weighted_objective p 0 1 EI PI ECn PLn c) →
      feasibleB p b2 = true →
      (∀ c, feasibleB p c = true → b2.PL ≤ c.PL) →
      a2.PL = b2.PL) := by
  constructor
  · intro hpos ha hwmin hb hecmin
    have h1 := hwmin b hb
    simp only [weighted_objective, one_mul, zero_mul, add_zero] at h1
    have h2 : calculate_EC_expression p a ≤ calculate_EC_expression p b := by
      have h3 := le_of_mul_le_mul_right h1 hpos
      linarith
    exact le_antisymm h2 (hecmin a ha)
  · intro hpos ha hwmin hb hplmin
    have h1 := hwmin b2 hb
    simp only [weighted_objective, one_mul, zero_mul, zero_add] at h1
    have h2 : a2.PL ≤ b2.PL := by
      have h3 := le_of_mul_le_mul_right h1 hpos
      linarith
    exact le_antisymm h2 (hplmin a2 ha)

/-- C8 (witness): on the empty instance with positive unit normalization
factors, the all-zero assignment minimizes both the weighted objectives
and the single objectives, and the theorem yields the value
equalities. -/
theorem C8_weighted_extremes_witness :
    calculate_EC_expression pEmpty aZero =
      calculate_EC_expression pEmpty aZero ∧
    aZero.PL = aZero.PL :=
  ⟨(C8_weighted_extremes pEmpty 0 0 1 1 aZero aZero aZero aZero).1
      one_pos aZero_pEmpty_feasible
      (fun c hc => by norm_num [weighted_objective, EC_pEmpty])
      aZero_pEmpty_feasible
      (fun c hc => le_of_eq (by rw [EC_pEmpty, EC_pEmpty])),
   (C8_weighted_extremes pEmpty 0 0 1 1 aZero aZero aZero aZero).2
      one_pos aZero_pEmpty_feasible
      (fun c hc => by
        have hPL := feasible_PL_nonneg hc
        simp only [weighted_objective, EC_pEmpty, zero_mul, one_mul,
          zero_add, sub_zero, mul_one]
        simpa [aZero] using hPL)
      aZero_pEmpty_feasible
      (fun c hc => by
        have hPL := feasible_PL_nonneg hc
        simpa [aZero] using hPL)⟩

end CompSched
